import Mathlib

/-! Shallow embedding of the alembic-views extension: the three migration
operation types from `operations.py` (construction, reversal, forward
execution and script rendering) and the autogenerate machinery from
`autogenerate.py` (the PostgreSQL normaliser, the PostgreSQL reflector's
row/schema handling, and the view comparator), together with theorems
checking the specification's claims against these definitions. -/

namespace AlembicViews

/-! Definitions: operation types from `operations.py`. -/

/-- Python truthiness of an `Optional[str]` value: `None` and the empty
string are falsy, every other string is truthy.  This is the test performed
by `assert self.old_definition` and by `if operation.schema`. -/
def optStrTruthy : Option String → Bool
  | none => false
  | some s => decide (s ≠ "")

/-- The `CreateViewOp(name, definition, schema)` operation. -/
structure CreateViewOp where
  name : String
  definition : String
  schema : Option String
deriving DecidableEq

/-- The `ReplaceViewOp(name, definition, schema, drop=False,
old_definition=None)` operation; the last two fields carry the Python
defaults. -/
structure ReplaceViewOp where
  name : String
  definition : String
  schema : Option String
  drop : Bool := false
  old_definition : Option String := none
deriving DecidableEq

/-- The `DropViewOp(name, schema, old_definition=None)` operation. -/
structure DropViewOp where
  name : String
  schema : Option String
  old_definition : Option String := none
deriving DecidableEq

/-- Source `CreateViewOp.reverse`: `return DropViewOp(self.name, self.schema)`
(the `old_definition` argument is not passed, so it takes its default
`None`). -/
def CreateViewOp.reverse (op : CreateViewOp) : DropViewOp :=
  { name := op.name, schema := op.schema }

/-- Source `ReplaceViewOp.reverse`: `assert self.old_definition` followed by
`ReplaceViewOp(self.name, self.old_definition, self.schema,
old_definition=self.definition)`.  The failed assertion is modelled as
`none`; `drop` takes its default `False` in the constructed operation. -/
def ReplaceViewOp.reverse (op : ReplaceViewOp) : Option ReplaceViewOp :=
  if optStrTruthy op.old_definition then
    some { name := op.name
           definition := op.old_definition.getD ""
           schema := op.schema
           old_definition := some op.definition }
  else
    none

/-- Source `DropViewOp.reverse`: `assert self.old_definition` followed by
`CreateViewOp(self.name, self.old_definition, self.schema)`. -/
def DropViewOp.reverse (op : DropViewOp) : Option CreateViewOp :=
  if optStrTruthy op.old_definition then
    some { name := op.name
           definition := op.old_definition.getD ""
           schema := op.schema }
  else
    none

/-- The quoted, optionally schema-qualified name built by the three
implementation functions: `f"{quote(schema)}.{quote(name)}" if
operation.schema else quote(name)` (Python truthiness on the schema). -/
def qualifiedViewName (quote : String → String) (schema : Option String)
    (name : String) : String :=
  if optStrTruthy schema then quote (schema.getD "") ++ "." ++ quote name
  else quote name

/-- Source `replace_view` implementation: the list of SQL statements passed
to `operations.execute`, in order.  `engineName` is
`operations.get_bind().engine.name`. -/
def replace_view (quote : String → String) (engineName : String)
    (op : ReplaceViewOp) : List String :=
  let n := qualifiedViewName quote op.schema op.name
  if op.drop = true ∨ engineName = "sqlite" then
    ["DROP VIEW " ++ n, "CREATE VIEW " ++ n ++ " AS " ++ op.definition]
  else
    ["CREATE OR REPLACE VIEW " ++ n ++ " AS " ++ op.definition]

/-- The parameters that appear in the script text produced by
`render_replace_view`, namely
`op.replace_view({name!r}, '''{definition}''', schema={schema!r})`.
The `drop` flag and the `old_definition` are not rendered. -/
structure RenderedReplaceView where
  name : String
  definition : String
  schema : Option String
deriving DecidableEq

/-- Source `render_replace_view`: records exactly the arguments present in
the rendered call. -/
def render_replace_view (op : ReplaceViewOp) : RenderedReplaceView :=
  { name := op.name, definition := op.definition, schema := op.schema }

/-- The `ReplaceViewOp.replace_view` classmethod invoked when a rendered
call runs: it builds `ReplaceViewOp(name, definition, schema, drop=drop)`
with `old_definition` left at its default `None`. -/
def replace_view_call (name definition : String) (schema : Option String)
    (drop : Bool) : ReplaceViewOp :=
  { name := name, definition := definition, schema := schema
    drop := drop, old_definition := none }

/-- Executing the rendered call: the rendered text passes only name,
definition and schema, so `drop` takes its default `False`. -/
def RenderedReplaceView.execute (quote : String → String) (engineName : String)
    (r : RenderedReplaceView) : List String :=
  replace_view quote engineName (replace_view_call r.name r.definition r.schema false)

/-! Definitions: the PostgreSQL normaliser `normalise_postgresql` from
`autogenerate.py`:
`definition.strip().rstrip(";")`, then `re.sub("\n *", " ", definition)`,
then `re.sub("::[a-z]+", "", definition)`. -/

/-- Whitespace characters removed by Python `str.strip()`, restricted to
the ASCII set (space, tab, newline, carriage return, vertical tab, form
feed); `str.strip()` also removes rarer Unicode space characters that play
no role here. -/
def pySpace (c : Char) : Bool :=
  c == ' ' || c == '\t' || c == '\n' || c == '\r' || c == '\x0b' || c == '\x0c'

/-- Python `definition.strip()`: remove leading and trailing whitespace. -/
def pyStrip (l : List Char) : List Char :=
  ((l.dropWhile pySpace).reverse.dropWhile pySpace).reverse

/-- Python `.rstrip(";")`: remove every trailing semicolon. -/
def pyRstripSemicolons (l : List Char) : List Char :=
  (l.reverse.dropWhile (fun c => c == ';')).reverse

/-- Python `re.sub("\n *", " ", definition)`: scanning left to right, each
newline together with the (greedy, possibly empty) run of spaces after it
is replaced by a single space. -/
def subNewlineSpaces : List Char → List Char
  | [] => []
  | c :: rest =>
    if c = '\n' then ' ' :: subNewlineSpaces (rest.dropWhile (fun x => x == ' '))
    else c :: subNewlineSpaces rest
termination_by l => l.length
decreasing_by
  · have h := (List.dropWhile_sublist (fun x => x == ' ') (l := rest)).length_le
    simp only [List.length_cons]
    omega
  · simp

/-- Python `re.sub("::[a-z]+", "", definition)`: scanning left to right, at
a `::` followed by at least one lowercase ASCII letter the `::` and the
maximal run of lowercase letters are removed; otherwise scanning advances by
one character.  Lists shorter than three characters cannot contain a
match. -/
def subCasts : List Char → List Char
  | [] => []
  | [c] => [c]
  | [c1, c2] => [c1, c2]
  | c1 :: c2 :: c3 :: rest =>
    if c1 = ':' ∧ c2 = ':' ∧ c3.isLower then subCasts (rest.dropWhile Char.isLower)
    else c1 :: subCasts (c2 :: c3 :: rest)
termination_by l => l.length
decreasing_by
  · have h := (List.dropWhile_sublist Char.isLower (l := rest)).length_le
    simp only [List.length_cons]
    omega
  · simp

/-- Source `normalise_postgresql`: strip surrounding whitespace, strip
trailing semicolons, collapse newline-plus-spaces runs to one space, remove
`::lowercase` cast annotations. -/
def normalise_postgresql (s : String) : String :=
  String.mk (subCasts (subNewlineSpaces (pyRstripSemicolons (pyStrip s.data))))

/-! Definitions: the PostgreSQL reflector `reflect_postgresql` from
`autogenerate.py` (its row/schema handling; the catalog query itself is a
database call). -/

/-- One row of the `pg_views` catalog query: `schemaname`, `viewname`,
`definition`. -/
structure PGViewRow where
  schemaname : String
  viewname : String
  definition : String
deriving DecidableEq

/-- The key built for a reflected row:
`(None if row[0] == default_schema_name else row[0], row[1])`. -/
def pgRowKey (defaultSchema : String) (r : PGViewRow) : Option String × String :=
  (if r.schemaname = defaultSchema then none else some r.schemaname, r.viewname)

/-- Source `reflect_postgresql` comprehension body: each returned row is
mapped to its key and its normalised definition. -/
def reflect_postgresql (defaultSchema : String) (rows : List PGViewRow) :
    List ((Option String × String) × String) :=
  rows.map (fun r => (pgRowKey defaultSchema r, normalise_postgresql r.definition))

/-- The schema list bound into the catalog query: each absent (`None`)
entry is replaced by the dialect's default schema name. -/
def resolvedSchemas (defaultSchema : String) (schemas : List (Option String)) :
    List String :=
  schemas.map (fun s =>
    match s with
    | none => defaultSchema
    | some x => x)

/-! Definitions: the comparator `compare_views` from `autogenerate.py`.
The declared mapping (`sqla_views`, already compiled and newline-stripped)
and the reflected mapping (`db_views`, produced by a reflector) are
parameters, represented as association lists keyed by view identity. -/

/-- A view identity: optional schema and name, the dictionary key type of
`compare_views`. -/
abbrev ViewKey := Option String × String

/-- A migration operation appended to `upgrade_ops.ops` by
`compare_views`. -/
inductive MigOp where
  | create (op : CreateViewOp)
  | drop (op : DropViewOp)
  | replace (op : ReplaceViewOp)
deriving DecidableEq

/-- The `(schema, name)` identity of an emitted operation. -/
def MigOp.key : MigOp → ViewKey
  | .create op => (op.schema, op.name)
  | .drop op => (op.schema, op.name)
  | .replace op => (op.schema, op.name)

/-- Dictionary lookup in a views mapping represented as an association
list. -/
def lookupView (m : List (ViewKey × String)) (k : ViewKey) : Option String :=
  match m with
  | [] => none
  | kv :: rest => if kv.1 = k then some kv.2 else lookupView rest k

/-- First loop of `compare_views` (`set(sqla_views) - set(db_views)`): for
every declared-only key passing the name filter, a `CreateViewOp` carrying
the declared definition. -/
def addedOps (filt : String → Option String → Bool)
    (sqla db : List (ViewKey × String)) : List MigOp :=
  (sqla.filter (fun kv => (lookupView db kv.1).isNone)).filterMap (fun kv =>
    if filt kv.1.2 kv.1.1 then
      some (.create { name := kv.1.2, definition := kv.2, schema := kv.1.1 })
    else none)

/-- Second loop of `compare_views` (`set(db_views) - set(sqla_views)`): for
every reflected-only key passing the name filter, a `DropViewOp` carrying
the reflected definition as `old_definition`. -/
def removedOps (filt : String → Option String → Bool)
    (sqla db : List (ViewKey × String)) : List MigOp :=
  (db.filter (fun kv => (lookupView sqla kv.1).isNone)).filterMap (fun kv =>
    if filt kv.1.2 kv.1.1 then
      some (.drop { name := kv.1.2, schema := kv.1.1, old_definition := some kv.2 })
    else none)

/-- Third loop of `compare_views` (`set(sqla_views) & set(db_views)`): for
every intersection key passing the name filter whose two definitions
differ, a `ReplaceViewOp` carrying the declared definition and the
reflected definition as `old_definition`. -/
def changedOps (filt : String → Option String → Bool)
    (sqla db : List (ViewKey × String)) : List MigOp :=
  (sqla.filter (fun kv => (lookupView db kv.1).isSome)).filterMap (fun kv =>
    if filt kv.1.2 kv.1.1 then
      match lookupView db kv.1 with
      | some old =>
        if kv.2 ≠ old then
          some (.replace { name := kv.1.2, definition := kv.2, schema := kv.1.1
                           old_definition := some old })
        else none
      | none => none
    else none)

/-- All operations appended by one comparison pass, in source order:
added, then removed, then changed. -/
def comparisonOps (filt : String → Option String → Bool)
    (sqla db : List (ViewKey × String)) : List MigOp :=
  addedOps filt sqla db ++ removedOps filt sqla db ++ changedOps filt sqla db

/-- The supported dialect names: the keys of `REFLECT_DIALECT`. -/
def supportedDialects : List String := ["sqlite", "postgresql"]

/-- Source `compare_views`: raise `NotImplementedError` for a dialect
outside `REFLECT_DIALECT` (before reflecting and before building any
operation), otherwise append the three groups of operations to the output
list `ops`. -/
def compare_views (dialect : String) (filt : String → Option String → Bool)
    (sqla db : List (ViewKey × String)) (ops : List MigOp) :
    Except String (List MigOp) :=
  if dialect ∉ supportedDialects then
    .error ("Unsupported dialect for view reflection: " ++ dialect)
  else
    .ok (ops ++ comparisonOps filt sqla db)

/-! Definitions following claim C3's words rather than the source, used to
compare the two (the claim-as-stated versions for the counterexample, and
single-pass reformulations used to state the amended claim). -/

/-- Claim C3 as stated: strip "one optional trailing semicolon". -/
def rstripOneSemicolonClaimed (l : List Char) : List Char :=
  if l.getLast? = some ';' then l.dropLast else l

/-- Claim C3 as stated: replace every run of a newline plus any following
spaces with the empty string (instead of a single space). -/
def subNewlineDeleteClaimed : List Char → List Char
  | [] => []
  | c :: rest =>
    if c = '\n' then subNewlineDeleteClaimed (rest.dropWhile (fun x => x == ' '))
    else c :: subNewlineDeleteClaimed rest
termination_by l => l.length
decreasing_by
  · have h := (List.dropWhile_sublist (fun x => x == ' ') (l := rest)).length_le
    simp only [List.length_cons]
    omega
  · simp

/-- The whole normaliser as claim C3 states it: trim whitespace, strip one
optional trailing semicolon, delete newline-plus-spaces runs, remove
`::lowercase` casts. -/
def normalise_postgresql_claimed (s : String) : String :=
  String.mk (subCasts (subNewlineDeleteClaimed (rstripOneSemicolonClaimed (pyStrip s.data))))

/-- Removal of a trailing run of characters satisfying `p`, written by
direct recursion (an independent rendering of "trims trailing ..." used to
state the amended claim). -/
def dropTrailing (p : Char → Bool) : List Char → List Char
  | [] => []
  | c :: rest =>
    let r := dropTrailing p rest
    if r.isEmpty && p c then [] else c :: r

/-- Single left-to-right pass replacing each newline and the spaces
following it by one space, written as a two-state scanner: the Boolean is
true while the scanner sits right after a replaced newline, where further
spaces belong to the replaced run and are consumed. -/
def subNLScan : Bool → List Char → List Char
  | _, [] => []
  | skips, c :: rest =>
    if skips && (c == ' ') then subNLScan true rest
    else if c == '\n' then ' ' :: subNLScan true rest
    else c :: subNLScan false rest

/-- Single left-to-right pass removing each `::lowercase-run` substring,
written as a scanner: `colons` counts pending not-yet-emitted `:`
characters, and `cast` is true while the lowercase letters of a match are
being consumed.  A lowercase letter arriving with at least two pending
colons starts a match: the last two pending colons are dropped and any
earlier ones are emitted. -/
def subCastsScan : Nat → Bool → List Char → List Char
  | colons, _, [] => List.replicate colons ':'
  | colons, cast, c :: rest =>
    if cast && c.isLower then subCastsScan colons true rest
    else if c == ':' then subCastsScan (colons + 1) false rest
    else if c.isLower && decide (2 ≤ colons) then
      List.replicate (colons - 2) ':' ++ subCastsScan 0 true rest
    else
      List.replicate colons ':' ++ (c :: subCastsScan 0 false rest)

/-- The first-match shape used by the cast-stripping equations: a list
starts a cast match when it begins with two colons and a lowercase
letter. -/
def startsCast : List Char → Prop
  | c1 :: c2 :: c3 :: _ => c1 = ':' ∧ c2 = ':' ∧ c3.isLower = true
  | _ => False

/-! Helper lemmas. -/

/-- The colon character is not a lowercase letter. -/
theorem colon_not_lower : (':' : Char).isLower = false := by decide

/-- The newline character is not a space (under the Boolean test used by
the scanners). -/
theorem newline_not_space : (('\n' : Char) == ' ') = false := by decide

/-- The recursive trailing-run remover agrees with
reverse/dropWhile/reverse. -/
theorem dropTrailing_eq (p : Char → Bool) (l : List Char) :
    dropTrailing p l = (l.reverse.dropWhile p).reverse := by
  induction l with
  | nil => simp [dropTrailing]
  | cons c rest ih =>
    simp only [dropTrailing, ih, List.reverse_cons, List.dropWhile_append]
    cases hE : (rest.reverse.dropWhile p).isEmpty with
    | true =>
      have hnil : rest.reverse.dropWhile p = [] := List.isEmpty_iff.mp hE
      rw [hnil]
      cases hpc : p c <;>
        simp [List.dropWhile, hpc]
    | false =>
      have hne : rest.reverse.dropWhile p ≠ [] := by
        intro h
        rw [h] at hE
        simp at hE
      have hrevne : (rest.reverse.dropWhile p).reverse ≠ [] := by
        simpa [List.reverse_eq_nil_iff] using hne
      have hrevE : ((rest.reverse.dropWhile p).reverse).isEmpty = false := by
        cases h2 : ((rest.reverse.dropWhile p).reverse).isEmpty with
        | true => exact absurd (List.isEmpty_iff.mp h2) hrevne
        | false => rfl
      simp [hrevE, List.reverse_append]

/-- In skip state the newline scanner first discards the pending spaces. -/
theorem subNLScan_skip (l : List Char) :
    subNLScan true l = subNLScan false (l.dropWhile (fun x => x == ' ')) := by
  induction l with
  | nil => simp [subNLScan]
  | cons c rest ih =>
    cases hc : (c == ' ') with
    | true => simp [subNLScan, hc, List.dropWhile_cons, ih]
    | false => simp [subNLScan, hc, List.dropWhile_cons]

/-- The newline scanner in normal state computes the regex
transliteration `subNewlineSpaces`. -/
theorem subNLScan_eq (l : List Char) :
    subNLScan false l = subNewlineSpaces l := by
  match l with
  | [] => simp [subNLScan, subNewlineSpaces]
  | c :: rest =>
    by_cases hc : c = '\n'
    · subst hc
      have h1 := subNLScan_skip rest
      have h2 := subNLScan_eq (rest.dropWhile (fun x => x == ' '))
      simp [subNLScan, subNewlineSpaces, newline_not_space, h1, h2]
    · have h2 := subNLScan_eq rest
      have hcb : (c == '\n') = false := by simpa using hc
      simp [subNLScan, subNewlineSpaces, hc, hcb, h2]
termination_by l.length
decreasing_by
  · have h := (List.dropWhile_sublist (fun x => x == ' ') (l := rest)).length_le
    simp only [List.length_cons]
    omega
  · simp

/-- No cast match starts at a head character other than a colon. -/
theorem not_startsCast_head (c : Char) (l : List Char) (hc : c ≠ ':') :
    ¬ startsCast (c :: l) := by
  match l with
  | [] => intro hx; exact hx
  | [c2] => intro hx; exact hx
  | c2 :: c3 :: t => intro hx; exact hc hx.1

/-- No cast match starts when the second character is not a colon. -/
theorem not_startsCast_second (c1 c2 : Char) (l : List Char) (hc : c2 ≠ ':') :
    ¬ startsCast (c1 :: c2 :: l) := by
  match l with
  | [] => intro hx; exact hx
  | c3 :: t => intro hx; exact hc hx.2.1

/-- No cast match starts when the third character is not lowercase. -/
theorem not_startsCast_third (c1 c2 c3 : Char) (l : List Char)
    (h3 : c3.isLower = false) : ¬ startsCast (c1 :: c2 :: c3 :: l) := by
  intro hx
  rw [hx.2.2] at h3
  cases h3

/-- When no match starts at the head, cast stripping copies the head. -/
theorem subCasts_cons_of_not_startsCast (c : Char) (l : List Char)
    (h : ¬ startsCast (c :: l)) :
    subCasts (c :: l) = c :: subCasts l := by
  match l with
  | [] => simp [subCasts]
  | [c2] => simp [subCasts]
  | c2 :: c3 :: rest =>
    have hcond : ¬ (c = ':' ∧ c2 = ':' ∧ c3.isLower = true) := h
    simp [subCasts, hcond]

/-- A list of colons only contains no cast match and is returned
unchanged. -/
theorem subCasts_replicate_colon (n : Nat) :
    subCasts (List.replicate n ':') = List.replicate n ':' := by
  match n with
  | 0 => simp [subCasts]
  | 1 => simp [subCasts, List.replicate]
  | 2 => simp [subCasts, List.replicate]
  | m + 3 =>
    have ih := subCasts_replicate_colon (m + 2)
    simp only [List.replicate_succ] at ih ⊢
    simp [subCasts, colon_not_lower, ih]
termination_by n

/-- Pending colons followed by a non-colon, non-lowercase character are
emitted unchanged by cast stripping. -/
theorem subCasts_replicate_peel (c : Char) (n : Nat) (rest : List Char)
    (hc : c ≠ ':') (hl : c.isLower = false) :
    subCasts (List.replicate n ':' ++ c :: rest) =
      List.replicate n ':' ++ subCasts (c :: rest) := by
  induction n with
  | zero => simp
  | succ m ih =>
    have hns : ¬ startsCast (':' :: (List.replicate m ':' ++ c :: rest)) := by
      match m with
      | 0 => exact not_startsCast_second ':' c rest hc
      | 1 => exact not_startsCast_third ':' ':' c rest hl
      | m2 + 2 =>
        exact not_startsCast_third ':' ':' ':'
          (List.replicate m2 ':' ++ c :: rest) colon_not_lower
    rw [List.replicate_succ, List.cons_append,
      subCasts_cons_of_not_startsCast _ _ hns, ih]
    rfl

/-- Two pending colons followed by a lowercase letter start a match: the
match together with the following lowercase run disappears, and any colons
before the last two are emitted unchanged. -/
theorem subCasts_replicate_match (c : Char) (hl : c.isLower = true)
    (n : Nat) (rest : List Char) :
    subCasts (List.replicate (n + 2) ':' ++ c :: rest) =
      List.replicate n ':' ++ subCasts (rest.dropWhile Char.isLower) := by
  induction n with
  | zero =>
    show subCasts (':' :: ':' :: c :: rest) = _
    simp [subCasts, hl]
  | succ m ih =>
    have hns : ¬ startsCast (':' :: (List.replicate (m + 2) ':' ++ c :: rest)) :=
      not_startsCast_third ':' ':' ':'
        (List.replicate m ':' ++ c :: rest) colon_not_lower
    rw [show m + 2 + 1 = m + 3 from rfl]
    rw [show (List.replicate (m + 3) ':') = ':' :: List.replicate (m + 2) ':' from rfl,
      List.cons_append, subCasts_cons_of_not_startsCast _ _ hns, ih,
      List.replicate_succ, List.cons_append]

/-- In cast-consuming state the cast scanner first discards the lowercase
run. -/
theorem subCastsScan_skip (l : List Char) : ∀ (colons : Nat),
    subCastsScan colons true l =
      subCastsScan colons false (l.dropWhile Char.isLower) := by
  induction l with
  | nil => intro colons; simp [subCastsScan]
  | cons c rest ih =>
    intro colons
    cases hcl : c.isLower with
    | true => simp [subCastsScan, hcl, List.dropWhile_cons, ih]
    | false => simp [subCastsScan, hcl, List.dropWhile_cons]

/-- The cast scanner with pending colons computes the regex
transliteration `subCasts` on the pending colons followed by the remaining
input. -/
theorem subCastsScan_eq_aux (l : List Char) : ∀ (n : Nat),
    subCastsScan n false l = subCasts (List.replicate n ':' ++ l) := by
  match l with
  | [] =>
    intro n
    simp [subCastsScan, subCasts_replicate_colon]
  | c :: rest =>
    intro n
    by_cases hc : c = ':'
    · subst hc
      have ih := subCastsScan_eq_aux rest (n + 1)
      have hlist : List.replicate n ':' ++ ':' :: rest =
          List.replicate (n + 1) ':' ++ rest := by
        rw [List.replicate_succ' n ':', List.append_assoc]
        rfl
      simp only [subCastsScan, colon_not_lower, Bool.and_false, Bool.false_and,
        beq_self_eq_true, if_true, if_false, Bool.false_eq_true]
      rw [ih, hlist]
    · have hcb : (c == ':') = false := by simpa using hc
      cases hcl : c.isLower with
      | true =>
        by_cases hn : 2 ≤ n
        · have ih := subCastsScan_eq_aux (rest.dropWhile Char.isLower) 0
          have hskip := subCastsScan_skip rest 0
          have hd : (decide (2 ≤ n)) = true := by simpa using hn
          have hn2 : n - 2 + 2 = n := by omega
          simp only [subCastsScan, Bool.false_and, if_false, hcb, hcl,
            Bool.true_and, hd, Bool.and_self, if_true, Bool.false_eq_true]
          rw [hskip, ih]
          simp only [List.replicate, List.nil_append]
          have hm := subCasts_replicate_match c hcl (n - 2) rest
          rw [hn2] at hm
          rw [hm]
        · have ih := subCastsScan_eq_aux rest 0
          have hd : (decide (2 ≤ n)) = false := by simpa using hn
          simp only [subCastsScan, Bool.false_and, if_false, hcb, hcl,
            Bool.true_and, hd, Bool.and_false, if_true, Bool.false_eq_true]
          rw [ih]
          simp only [List.replicate, List.nil_append]
          obtain _ | n1 := n
          · show c :: subCasts rest = subCasts (c :: rest)
            rw [subCasts_cons_of_not_startsCast c rest (not_startsCast_head c rest hc)]
          · obtain _ | n2 := n1
            · show ':' :: (c :: subCasts rest) = subCasts (':' :: c :: rest)
              rw [subCasts_cons_of_not_startsCast ':' (c :: rest)
                  (not_startsCast_second ':' c rest hc),
                subCasts_cons_of_not_startsCast c rest (not_startsCast_head c rest hc)]
            · exact absurd (by omega) hn
      | false =>
        have ih := subCastsScan_eq_aux rest 0
        simp only [subCastsScan, Bool.false_and, if_false, hcb, hcl,
          Bool.false_eq_true]
        rw [ih]
        simp only [List.replicate, List.nil_append]
        rw [subCasts_replicate_peel c n rest hc hcl,
          subCasts_cons_of_not_startsCast c rest (not_startsCast_head c rest hc)]
termination_by l.length
decreasing_by
  all_goals
    have h := (List.dropWhile_sublist Char.isLower (l := rest)).length_le
    simp only [List.length_cons]
    omega

/-- The cast scanner started empty computes `subCasts`. -/
theorem subCastsScan_eq (l : List Char) : subCastsScan 0 false l = subCasts l := by
  have h := subCastsScan_eq_aux l 0
  simpa using h

/-- Lookup fails exactly on keys outside the mapping. -/
theorem lookupView_eq_none_iff (m : List (ViewKey × String)) (k : ViewKey) :
    lookupView m k = none ↔ k ∉ m.map Prod.fst := by
  induction m with
  | nil => simp [lookupView]
  | cons kv rest ih =>
    by_cases h : kv.1 = k
    · simp [lookupView, h]
    · have h2 : ¬ (k = kv.1) := fun he => h he.symm
      simp [lookupView, h, h2, ih]

/-- Filtering before a `filterMap` is the same as one `filterMap` with a
guarded function. -/
theorem filterMap_filter_comm {α β : Type} (p : α → Bool) (g : α → Option β)
    (m : List α) :
    (m.filter p).filterMap g =
      m.filterMap (fun a => if p a then g a else none) := by
  induction m with
  | nil => simp
  | cons a rest ih =>
    cases hp : p a <;> cases hga : g a <;>
      simp [List.filter_cons, List.filterMap_cons, hp, hga, ih]

/-- For a mapping with distinct keys and an emission function that tags
each produced operation with its pair's key, the operations produced for a
given key are exactly those of the pair found by lookup. -/
theorem filterMap_key_filter (f : ViewKey × String → Option MigOp)
    (hf : ∀ kv o, f kv = some o → o.key = kv.1)
    (m : List (ViewKey × String)) (hm : (m.map Prod.fst).Nodup) (k : ViewKey) :
    (m.filterMap f).filter (fun o => decide (o.key = k)) =
      match lookupView m k with
      | some v => (f (k, v)).toList
      | none => [] := by
  induction m with
  | nil => simp [lookupView]
  | cons kv rest ih =>
    obtain ⟨k1, v1⟩ := kv
    simp only [List.map_cons, List.nodup_cons] at hm
    obtain ⟨hnotmem, hnd⟩ := hm
    by_cases hk : k1 = k
    · subst hk
      have hrest : lookupView rest k1 = none :=
        (lookupView_eq_none_iff rest k1).mpr hnotmem
      have hrestfilter :
          (rest.filterMap f).filter (fun o => decide (o.key = k1)) = [] := by
        rw [ih hnd, hrest]
      cases hfv : f (k1, v1) with
      | none =>
        simp [List.filterMap_cons, hfv, lookupView, hrestfilter]
      | some o =>
        have hko : o.key = k1 := hf _ _ hfv
        simp [List.filterMap_cons, hfv, lookupView, List.filter_cons, hko,
          hrestfilter]
    · have hlk : lookupView (⟨k1, v1⟩ :: rest) k = lookupView rest k := by
        simp [lookupView, hk]
      cases hfv : f (k1, v1) with
      | none => simp [List.filterMap_cons, hfv, hlk, ih hnd]
      | some o =>
        have hko : o.key = k1 := hf _ _ hfv
        have hne : ¬ (o.key = k) := by rw [hko]; exact hk
        simp [List.filterMap_cons, hfv, hlk, List.filter_cons, hne, ih hnd]

/-- The added-views loop emits, for a given key, exactly the create
operation of that key when it is declared, not reflected, and passes the
filter. -/
theorem addedOps_filter_key (filt : String → Option String → Bool)
    (sqla db : List (ViewKey × String)) (hs : (sqla.map Prod.fst).Nodup)
    (k : ViewKey) :
    (addedOps filt sqla db).filter (fun o => decide (o.key = k)) =
      match lookupView sqla k with
      | some v =>
        if (lookupView db k).isNone then
          if filt k.2 k.1 then
            [MigOp.create { name := k.2, definition := v, schema := k.1 }]
          else []
        else []
      | none => [] := by
  rw [addedOps, filterMap_filter_comm, filterMap_key_filter _ ?hf sqla hs k]
  case hf =>
    intro kv o h
    split at h
    · split at h
      · injection h with h3
        subst h3
        simp [MigOp.key]
      · cases h
    · cases h
  cases hlv : lookupView sqla k with
  | none => rfl
  | some v =>
    dsimp only
    split
    · split
      · rfl
      · rfl
    · rfl

/-- The removed-views loop emits, for a given key, exactly the drop
operation of that key when it is reflected, not declared, and passes the
filter. -/
theorem removedOps_filter_key (filt : String → Option String → Bool)
    (sqla db : List (ViewKey × String)) (hd : (db.map Prod.fst).Nodup)
    (k : ViewKey) :
    (removedOps filt sqla db).filter (fun o => decide (o.key = k)) =
      match lookupView db k with
      | some v =>
        if (lookupView sqla k).isNone then
          if filt k.2 k.1 then
            [MigOp.drop { name := k.2, schema := k.1, old_definition := some v }]
          else []
        else []
      | none => [] := by
  rw [removedOps, filterMap_filter_comm, filterMap_key_filter _ ?hf db hd k]
  case hf =>
    intro kv o h
    split at h
    · split at h
      · injection h with h3
        subst h3
        simp [MigOp.key]
      · cases h
    · cases h
  cases hlv : lookupView db k with
  | none => rfl
  | some v =>
    dsimp only
    split
    · split
      · rfl
      · rfl
    · rfl

/-- The changed-views loop emits, for a given key, exactly the replace
operation of that key when it is declared and reflected with different
definitions and passes the filter. -/
theorem changedOps_filter_key (filt : String → Option String → Bool)
    (sqla db : List (ViewKey × String)) (hs : (sqla.map Prod.fst).Nodup)
    (k : ViewKey) :
    (changedOps filt sqla db).filter (fun o => decide (o.key = k)) =
      match lookupView sqla k, lookupView db k with
      | some v, some old =>
        if filt k.2 k.1 then
          if v ≠ old then
            [MigOp.replace { name := k.2, definition := v, schema := k.1
                             old_definition := some old }]
          else []
        else []
      | _, _ => [] := by
  rw [changedOps, filterMap_filter_comm, filterMap_key_filter _ ?hf sqla hs k]
  case hf =>
    intro kv o h
    split at h
    · split at h
      · split at h
        · split at h
          · injection h with h3
            subst h3
            simp [MigOp.key]
          · cases h
        · cases h
      · cases h
    · cases h
  cases hlv1 : lookupView sqla k with
  | none =>
    cases hlv2 : lookupView db k <;> rfl
  | some v =>
    cases hlv2 : lookupView db k with
    | none =>
      dsimp only
      rw [hlv2]
      rfl
    | some old =>
      dsimp only
      rw [hlv2]
      simp only [Option.isSome_some, if_true]
      split
      · split
        · rfl
        · rfl
      · rfl

/-! Claim theorems. -/

/-- C1, counterexample: reversing `CreateViewOp("v", "SELECT 1", None)` does
not produce a `DropViewOp` whose `old_definition` equals the create's
definition — the source passes no `old_definition` at all. -/
theorem create_reverse_cex :
    (CreateViewOp.mk "v" "SELECT 1" none).reverse ≠
      DropViewOp.mk "v" none (some "SELECT 1") := by
  decide

/-- C1 (amended): for every `CreateViewOp`, `reverse()` returns a
`DropViewOp` with the same name and schema whose `old_definition` is absent
(`None`); consequently the resulting drop cannot itself be reversed. -/
theorem create_reverse_drops_definition (op : CreateViewOp) :
    op.reverse = DropViewOp.mk op.name op.schema none ∧
      op.reverse.reverse = none := by
  refine ⟨rfl, ?_⟩
  simp [CreateViewOp.reverse, DropViewOp.reverse, optStrTruthy]

/-- C2, counterexample: for the drop operation
`DropViewOp("v", None, old_definition="SELECT 1")`, `reverse().reverse()`
succeeds but yields a drop whose `old_definition` is `None`, not the
original operation. -/
theorem drop_roundtrip_cex :
    ((DropViewOp.mk "v" none (some "SELECT 1")).reverse.map CreateViewOp.reverse) =
        some (DropViewOp.mk "v" none none) ∧
      DropViewOp.mk "v" none none ≠ DropViewOp.mk "v" none (some "SELECT 1") := by
  decide

/-- C2 (amended): for a `ReplaceViewOp` whose `old_definition` and
`definition` are both truthy, `reverse().reverse()` yields a replace with
the same name, schema, definition and `old_definition` (and `drop` reset to
`False`); for a `DropViewOp` with truthy `old_definition`,
`reverse().reverse()` succeeds but yields a drop with the same name and
schema whose `old_definition` has been lost (`None`). -/
theorem reverse_roundtrip (r : ReplaceViewOp) (d : DropViewOp)
    (hr : optStrTruthy r.old_definition = true)
    (hrd : r.definition ≠ "")
    (hd : optStrTruthy d.old_definition = true) :
    (∃ r2, r.reverse.bind ReplaceViewOp.reverse = some r2 ∧
        r2.name = r.name ∧ r2.schema = r.schema ∧
        r2.definition = r.definition ∧ r2.old_definition = r.old_definition ∧
        r2.drop = false) ∧
      ∃ c, d.reverse = some c ∧
        c.reverse = DropViewOp.mk d.name d.schema none := by
  obtain ⟨s, hs⟩ : ∃ s, r.old_definition = some s := by
    cases h : r.old_definition with
    | none => rw [h] at hr; simp [optStrTruthy] at hr
    | some s => exact ⟨s, rfl⟩
  obtain ⟨t, ht⟩ : ∃ t, d.old_definition = some t := by
    cases h : d.old_definition with
    | none => rw [h] at hd; simp [optStrTruthy] at hd
    | some t => exact ⟨t, rfl⟩
  rw [hs] at hr
  rw [ht] at hd
  simp only [optStrTruthy, decide_eq_true_eq] at hr hd
  constructor
  · refine ⟨{ name := r.name, definition := r.definition, schema := r.schema
              old_definition := some s }, ?_, rfl, rfl, rfl, hs.symm, rfl⟩
    simp [ReplaceViewOp.reverse, hs, optStrTruthy, hr, hrd, Option.bind]
  · refine ⟨{ name := d.name, definition := t, schema := d.schema }, ?_, rfl⟩
    simp [DropViewOp.reverse, ht, optStrTruthy, hd]

/-- C2, witness: the round-trip theorem applied to
`ReplaceViewOp("v", "NEW", None, old_definition="OLD")` and
`DropViewOp("w", "s", old_definition="SELECT 3")`. -/
theorem reverse_roundtrip_witness :
    (∃ r2, ((ReplaceViewOp.mk "v" "NEW" none false (some "OLD")).reverse.bind
          ReplaceViewOp.reverse) = some r2 ∧
        r2.name = "v" ∧ r2.schema = none ∧
        r2.definition = "NEW" ∧ r2.old_definition = some "OLD" ∧
        r2.drop = false) ∧
      ∃ c, (DropViewOp.mk "w" (some "s") (some "SELECT 3")).reverse = some c ∧
        c.reverse = DropViewOp.mk "w" (some "s") none :=
  reverse_roundtrip (ReplaceViewOp.mk "v" "NEW" none false (some "OLD"))
    (DropViewOp.mk "w" (some "s") (some "SELECT 3"))
    (by decide) (by decide) (by decide)

/-- C3, counterexample: on the input "SELECT a\n  FROM t;;" the source
normaliser removes both trailing semicolons (not at most one) and replaces
the newline-plus-spaces run with a single space (not the empty string), so
it differs from the normaliser described by the claim. -/
theorem normalise_postgresql_cex :
    normalise_postgresql "SELECT a\n  FROM t;;" = "SELECT a FROM t" ∧
      normalise_postgresql_claimed "SELECT a\n  FROM t;;" = "SELECT aFROM t;" ∧
      ("SELECT a FROM t" : String) ≠ "SELECT aFROM t;" := by
  refine ⟨?_, ?_, by decide⟩
  · simp [normalise_postgresql, pyStrip, pyRstripSemicolons, pySpace,
      subNewlineSpaces, subCasts]
  · simp [normalise_postgresql_claimed, pyStrip, rstripOneSemicolonClaimed,
      pySpace, subNewlineDeleteClaimed, subCasts]

/-- C3 (amended): for every input string the PostgreSQL normaliser trims
surrounding whitespace, strips every trailing semicolon (not just one),
replaces each newline together with the run of spaces following it by a
single space (not the empty string), and removes every substring of the
form `::` followed by one or more lowercase letters — as computed by the
independent trailing-run removers and single-pass scanners. -/
theorem normalise_postgresql_characterised (s : String) :
    normalise_postgresql s =
      String.mk (subCastsScan 0 false (subNLScan false
        (dropTrailing (fun c => c == ';')
          (dropTrailing pySpace (s.data.dropWhile pySpace))))) := by
  rw [dropTrailing_eq, dropTrailing_eq, subNLScan_eq, subCastsScan_eq]
  rfl

/-- C7, counterexample: `DropViewOp("v", None, old_definition="")` has a
present (non-`None`) `old_definition`, yet its reversal fails the
precondition, because the source checks truthiness. -/
theorem reverse_present_empty_cex :
    (DropViewOp.mk "v" none (some "")).old_definition ≠ none ∧
      (DropViewOp.mk "v" none (some "")).reverse = none := by
  decide

/-- C7 (amended): reversing a `DropViewOp` or `ReplaceViewOp` whose
`old_definition` is absent fails the precondition, and when
`old_definition` is present and non-empty the reversal succeeds: the drop
reverses to a create carrying `old_definition` as its definition, and the
replace reverses to a replace with old and new definitions swapped. -/
theorem reverse_precondition (d : DropViewOp) (r : ReplaceViewOp) :
    (d.old_definition = none → d.reverse = none) ∧
      (r.old_definition = none → r.reverse = none) ∧
      (∀ s, d.old_definition = some s → s ≠ "" →
        d.reverse = some (CreateViewOp.mk d.name s d.schema)) ∧
      (∀ s, r.old_definition = some s → s ≠ "" →
        r.reverse = some (ReplaceViewOp.mk r.name s r.schema false
          (some r.definition))) := by
  refine ⟨?_, ?_, ?_, ?_⟩
  · intro h; simp [DropViewOp.reverse, h, optStrTruthy]
  · intro h; simp [ReplaceViewOp.reverse, h, optStrTruthy]
  · intro s h hs; simp [DropViewOp.reverse, h, optStrTruthy, hs]
  · intro s h hs; simp [ReplaceViewOp.reverse, h, optStrTruthy, hs]

/-- C7, witness: the precondition theorem applied at concrete operations in
each of its four cases. -/
theorem reverse_precondition_witness :
    (DropViewOp.mk "v" none none).reverse = none ∧
      (ReplaceViewOp.mk "w" "NEW" none false none).reverse = none ∧
      (DropViewOp.mk "v" none (some "SELECT 1")).reverse =
        some (CreateViewOp.mk "v" "SELECT 1" none) ∧
      (ReplaceViewOp.mk "w" "NEW" none true (some "OLD")).reverse =
        some (ReplaceViewOp.mk "w" "OLD" none false (some "NEW")) :=
  ⟨(reverse_precondition (DropViewOp.mk "v" none none)
      (ReplaceViewOp.mk "w" "NEW" none false none)).1 rfl,
   (reverse_precondition (DropViewOp.mk "v" none none)
      (ReplaceViewOp.mk "w" "NEW" none false none)).2.1 rfl,
   (reverse_precondition (DropViewOp.mk "v" none (some "SELECT 1"))
      (ReplaceViewOp.mk "w" "NEW" none false none)).2.2.1 "SELECT 1" rfl
      (by decide),
   (reverse_precondition (DropViewOp.mk "v" none none)
      (ReplaceViewOp.mk "w" "NEW" none true (some "OLD"))).2.2.2 "OLD" rfl
      (by decide)⟩

/-- C10: reversing a `DropViewOp` or `ReplaceViewOp` whose `old_definition`
is the empty string (present but empty) also fails the reversal
precondition, because `assert self.old_definition` tests truthiness rather
than presence. -/
theorem reverse_empty_old_definition (n dfn : String) (sch : Option String)
    (dr : Bool) :
    (DropViewOp.mk n sch (some "")).reverse = none ∧
      (ReplaceViewOp.mk n dfn sch dr (some "")).reverse = none := by
  constructor <;> simp [DropViewOp.reverse, ReplaceViewOp.reverse, optStrTruthy]

/-- C4: forward execution of `ReplaceViewOp` issues DROP VIEW followed by
CREATE VIEW as two statements when the drop flag is set or the engine is
SQLite, and otherwise issues exactly one CREATE OR REPLACE VIEW
statement. -/
theorem replace_view_statements (quote : String → String) (en : String)
    (op : ReplaceViewOp) :
    ((op.drop = true ∨ en = "sqlite") →
      replace_view quote en op =
        ["DROP VIEW " ++ qualifiedViewName quote op.schema op.name,
         "CREATE VIEW " ++ qualifiedViewName quote op.schema op.name ++
           " AS " ++ op.definition]) ∧
      (op.drop = false → en ≠ "sqlite" →
        replace_view quote en op =
          ["CREATE OR REPLACE VIEW " ++
            qualifiedViewName quote op.schema op.name ++
            " AS " ++ op.definition]) := by
  constructor
  · intro h; simp [replace_view, h]
  · intro h1 h2
    have hcond : ¬ (op.drop = true ∨ en = "sqlite") := by
      rintro (h | h)
      · rw [h1] at h; cases h
      · exact h2 h
    simp [replace_view, hcond]

/-- C4, witness: the statement-shape theorem at a concrete operation, once
on SQLite and once on PostgreSQL with the drop flag unset. -/
theorem replace_view_statements_witness :
    replace_view id "sqlite" (ReplaceViewOp.mk "v" "SELECT 1" none false none) =
        ["DROP VIEW v", "CREATE VIEW v AS SELECT 1"] ∧
      replace_view id "postgresql"
          (ReplaceViewOp.mk "v" "SELECT 1" none false none) =
        ["CREATE OR REPLACE VIEW v AS SELECT 1"] :=
  ⟨(replace_view_statements id "sqlite"
      (ReplaceViewOp.mk "v" "SELECT 1" none false none)).1 (Or.inr rfl),
   (replace_view_statements id "postgresql"
      (ReplaceViewOp.mk "v" "SELECT 1" none false none)).2 rfl (by decide)⟩

/-- C6, counterexample: for `ReplaceViewOp("v", "SELECT 1", None, drop=True)`
on PostgreSQL, direct execution issues DROP then CREATE, but executing the
rendered call (which omits the drop flag) issues a single CREATE OR
REPLACE, so rendering does not reproduce forward-execution behaviour. -/
theorem render_replace_roundtrip_cex :
    replace_view id "postgresql" (ReplaceViewOp.mk "v" "SELECT 1" none true none) =
        ["DROP VIEW v", "CREATE VIEW v AS SELECT 1"] ∧
      (render_replace_view (ReplaceViewOp.mk "v" "SELECT 1" none true none)).execute
          id "postgresql" =
        ["CREATE OR REPLACE VIEW v AS SELECT 1"] ∧
      (["DROP VIEW v", "CREATE VIEW v AS SELECT 1"] : List String) ≠
        ["CREATE OR REPLACE VIEW v AS SELECT 1"] := by
  refine ⟨by decide, by decide, by decide⟩

/-- C6 (amended): for every `ReplaceViewOp` whose drop flag is unset,
rendering and re-executing the rendered call reproduces forward execution
exactly; when the drop flag is set the renderer omits it, so on any
non-SQLite engine the rendered call executes differently from the original
operation. -/
theorem render_replace_roundtrip (quote : String → String) (en : String)
    (op : ReplaceViewOp) :
    (op.drop = false →
      (render_replace_view op).execute quote en = replace_view quote en op) ∧
      (op.drop = true → en ≠ "sqlite" →
        (render_replace_view op).execute quote en ≠ replace_view quote en op) := by
  constructor
  · intro h
    simp [RenderedReplaceView.execute, render_replace_view, replace_view_call,
      replace_view, h]
  · intro h hen
    have hcond : ¬ ((false : Bool) = true ∨ en = "sqlite") := by
      rintro (hc | hc)
      · cases hc
      · exact hen hc
    simp only [RenderedReplaceView.execute, render_replace_view,
      replace_view_call, replace_view, h, if_pos (Or.inl rfl), if_neg hcond]
    intro hiff
    have := congrArg List.length hiff
    simp at this

/-- C6, witness: the rendering theorem at concrete operations on
PostgreSQL, in both the drop-unset and the drop-set case. -/
theorem render_replace_roundtrip_witness :
    ((render_replace_view (ReplaceViewOp.mk "v" "SELECT 2" none false (some "OLD"))).execute
        id "postgresql" =
      replace_view id "postgresql"
        (ReplaceViewOp.mk "v" "SELECT 2" none false (some "OLD"))) ∧
      ((render_replace_view (ReplaceViewOp.mk "v" "SELECT 2" none true none)).execute
          id "postgresql" ≠
        replace_view id "postgresql"
          (ReplaceViewOp.mk "v" "SELECT 2" none true none)) :=
  ⟨(render_replace_roundtrip id "postgresql"
      (ReplaceViewOp.mk "v" "SELECT 2" none false (some "OLD"))).1 rfl,
   (render_replace_roundtrip id "postgresql"
      (ReplaceViewOp.mk "v" "SELECT 2" none true none)).2 rfl (by decide)⟩

/-- C9: every PostgreSQL-reflected row yields an entry whose key has an
absent schema exactly when the row's schema equals the dialect's default
schema name (and carries the row's schema name otherwise), and in the
issued catalog query's schema list every absent entry is substituted by the
default schema name. -/
theorem reflect_postgresql_schemas (ds : String) (rows : List PGViewRow)
    (schemas : List (Option String)) :
    (∀ r ∈ rows,
      (pgRowKey ds r, normalise_postgresql r.definition) ∈
          reflect_postgresql ds rows ∧
        ((pgRowKey ds r).1 = none ↔ r.schemaname = ds) ∧
        (r.schemaname ≠ ds → (pgRowKey ds r).1 = some r.schemaname) ∧
        (pgRowKey ds r).2 = r.viewname) ∧
      resolvedSchemas ds schemas = schemas.map (fun s => s.getD ds) := by
  constructor
  · intro r hr
    refine ⟨List.mem_map_of_mem _ hr, ?_, ?_, rfl⟩
    · by_cases h : r.schemaname = ds <;> simp [pgRowKey, h]
    · intro h; simp [pgRowKey, h]
  · have hfun : (fun s : Option String =>
        match s with
        | none => ds
        | some x => x) = (fun s : Option String => s.getD ds) := by
      funext s
      cases s <;> rfl
    rw [resolvedSchemas, hfun]

/-- C9, witness: the reflector mapping theorem applied to two concrete
rows (one in the default schema, one elsewhere) and a two-entry schema
list. -/
theorem reflect_postgresql_schemas_witness :
    ((pgRowKey "public" ⟨"public", "v", "SELECT 1"⟩,
        normalise_postgresql "SELECT 1") ∈
      reflect_postgresql "public"
        [⟨"public", "v", "SELECT 1"⟩, ⟨"other", "w", "SELECT 2"⟩]) ∧
      (pgRowKey "public" ⟨"public", "v", "SELECT 1"⟩).1 = none ∧
      (pgRowKey "public" ⟨"other", "w", "SELECT 2"⟩).1 = some "other" ∧
      resolvedSchemas "public" [none, some "other"] = ["public", "other"] := by
  obtain ⟨h1, h2⟩ := reflect_postgresql_schemas "public"
    [⟨"public", "v", "SELECT 1"⟩, ⟨"other", "w", "SELECT 2"⟩]
    [none, some "other"]
  have ha := h1 ⟨"public", "v", "SELECT 1"⟩ (by decide)
  have hb := h1 ⟨"other", "w", "SELECT 2"⟩ (by decide)
  exact ⟨ha.1, ha.2.1.mpr rfl, hb.2.2.1 (by decide), by rw [h2]; rfl⟩

/-- C5: for declared and reflected mappings with distinct keys, the
comparator emits, per key passing the name filter, exactly one operation —
a create carrying the declared definition for declared-only keys, a drop
carrying the reflected definition as `old_definition` for reflected-only
keys, a replace carrying the declared definition and the reflected
definition as `old_definition` for intersection keys with differing
definitions, and nothing for intersection keys with equal definitions or
keys failing the filter — and every key of either mapping belongs to
exactly one of the four partition classes. -/
theorem compare_views_partition (filt : String → Option String → Bool)
    (sqla db : List (ViewKey × String))
    (hs : (sqla.map Prod.fst).Nodup) (hd : (db.map Prod.fst).Nodup)
    (k : ViewKey) :
    (∀ d, lookupView sqla k = some d → lookupView db k = none →
      filt k.2 k.1 = true →
      (comparisonOps filt sqla db).filter (fun o => decide (o.key = k)) =
        [MigOp.create { name := k.2, definition := d, schema := k.1 }]) ∧
    (∀ w, lookupView sqla k = none → lookupView db k = some w →
      filt k.2 k.1 = true →
      (comparisonOps filt sqla db).filter (fun o => decide (o.key = k)) =
        [MigOp.drop { name := k.2, schema := k.1, old_definition := some w }]) ∧
    (∀ d w, lookupView sqla k = some d → lookupView db k = some w → d ≠ w →
      filt k.2 k.1 = true →
      (comparisonOps filt sqla db).filter (fun o => decide (o.key = k)) =
        [MigOp.replace { name := k.2, definition := d, schema := k.1
                         old_definition := some w }]) ∧
    (∀ d w, lookupView sqla k = some d → lookupView db k = some w → d = w →
      (comparisonOps filt sqla db).filter (fun o => decide (o.key = k)) = []) ∧
    (filt k.2 k.1 = false →
      (comparisonOps filt sqla db).filter (fun o => decide (o.key = k)) = []) ∧
    (lookupView sqla k = none → lookupView db k = none →
      (comparisonOps filt sqla db).filter (fun o => decide (o.key = k)) = []) ∧
    ((k ∈ sqla.map Prod.fst ∨ k ∈ db.map Prod.fst) →
      (((lookupView sqla k).isSome = true ∧ lookupView db k = none) ∧
          ¬ (lookupView sqla k = none ∧ (lookupView db k).isSome = true) ∧
          ¬ (∃ d w, lookupView sqla k = some d ∧ lookupView db k = some w ∧ d ≠ w) ∧
          ¬ (∃ d, lookupView sqla k = some d ∧ lookupView db k = some d)) ∨
        (¬ ((lookupView sqla k).isSome = true ∧ lookupView db k = none) ∧
          (lookupView sqla k = none ∧ (lookupView db k).isSome = true) ∧
          ¬ (∃ d w, lookupView sqla k = some d ∧ lookupView db k = some w ∧ d ≠ w) ∧
          ¬ (∃ d, lookupView sqla k = some d ∧ lookupView db k = some d)) ∨
        (¬ ((lookupView sqla k).isSome = true ∧ lookupView db k = none) ∧
          ¬ (lookupView sqla k = none ∧ (lookupView db k).isSome = true) ∧
          (∃ d w, lookupView sqla k = some d ∧ lookupView db k = some w ∧ d ≠ w) ∧
          ¬ (∃ d, lookupView sqla k = some d ∧ lookupView db k = some d)) ∨
        (¬ ((lookupView sqla k).isSome = true ∧ lookupView db k = none) ∧
          ¬ (lookupView sqla k = none ∧ (lookupView db k).isSome = true) ∧
          ¬ (∃ d w, lookupView sqla k = some d ∧ lookupView db k = some w ∧ d ≠ w) ∧
          (∃ d, lookupView sqla k = some d ∧ lookupView db k = some d))) := by
  have hA := addedOps_filter_key filt sqla db hs k
  have hR := removedOps_filter_key filt sqla db hd k
  have hC := changedOps_filter_key filt sqla db hs k
  refine ⟨?_, ?_, ?_, ?_, ?_, ?_, ?_⟩
  · intro d h1 h2 hfilt
    rw [comparisonOps, List.filter_append, List.filter_append, hA, hR, hC,
      h1, h2]
    simp [hfilt]
  · intro w h1 h2 hfilt
    rw [comparisonOps, List.filter_append, List.filter_append, hA, hR, hC,
      h1, h2]
    simp [hfilt]
  · intro d w h1 h2 hne hfilt
    rw [comparisonOps, List.filter_append, List.filter_append, hA, hR, hC,
      h1, h2]
    simp [hfilt, hne]
  · intro d w h1 h2 heq
    subst heq
    rw [comparisonOps, List.filter_append, List.filter_append, hA, hR, hC,
      h1, h2]
    simp
  · intro hfilt
    rw [comparisonOps, List.filter_append, List.filter_append, hA, hR, hC]
    cases hlv1 : lookupView sqla k <;> cases hlv2 : lookupView db k <;>
      simp [hfilt]
  · intro h1 h2
    rw [comparisonOps, List.filter_append, List.filter_append, hA, hR, hC,
      h1, h2]
    simp
  · intro hmem
    cases hlv1 : lookupView sqla k with
    | none =>
      cases hlv2 : lookupView db k with
      | none =>
        rcases hmem with hm | hm
        · exact absurd hm ((lookupView_eq_none_iff sqla k).mp hlv1)
        · exact absurd hm ((lookupView_eq_none_iff db k).mp hlv2)
      | some w => simp
    | some d =>
      cases hlv2 : lookupView db k with
      | none => simp
      | some w =>
        by_cases hdw : d = w
        · subst hdw
          simp
        · simp [hdw]
          intro hh
          exact hdw hh.symm

/-- C5, witness: the partition theorem applied to concrete three-entry
mappings covering the added, removed, changed and unchanged cases. -/
theorem compare_views_partition_witness :
    (comparisonOps (fun _ _ => true)
        [(((none : Option String), "v1"), "SELECT 1"),
         (((none : Option String), "v3"), "SELECT 3"),
         (((none : Option String), "v4"), "SELECT 4")]
        [(((none : Option String), "v2"), "SELECT 2"),
         (((none : Option String), "v3"), "SELECT 5"),
         (((none : Option String), "v4"), "SELECT 4")]).filter
        (fun o => decide (o.key = ((none : Option String), "v1"))) =
      [MigOp.create { name := "v1", definition := "SELECT 1", schema := none }] ∧
    (comparisonOps (fun _ _ => true)
        [(((none : Option String), "v1"), "SELECT 1"),
         (((none : Option String), "v3"), "SELECT 3"),
         (((none : Option String), "v4"), "SELECT 4")]
        [(((none : Option String), "v2"), "SELECT 2"),
         (((none : Option String), "v3"), "SELECT 5"),
         (((none : Option String), "v4"), "SELECT 4")]).filter
        (fun o => decide (o.key = ((none : Option String), "v2"))) =
      [MigOp.drop { name := "v2", schema := none, old_definition := some "SELECT 2" }] ∧
    (comparisonOps (fun _ _ => true)
        [(((none : Option String), "v1"), "SELECT 1"),
         (((none : Option String), "v3"), "SELECT 3"),
         (((none : Option String), "v4"), "SELECT 4")]
        [(((none : Option String), "v2"), "SELECT 2"),
         (((none : Option String), "v3"), "SELECT 5"),
         (((none : Option String), "v4"), "SELECT 4")]).filter
        (fun o => decide (o.key = ((none : Option String), "v3"))) =
      [MigOp.replace { name := "v3", definition := "SELECT 3", schema := none
                       old_definition := some "SELECT 5" }] ∧
    (comparisonOps (fun _ _ => true)
        [(((none : Option String), "v1"), "SELECT 1"),
         (((none : Option String), "v3"), "SELECT 3"),
         (((none : Option String), "v4"), "SELECT 4")]
        [(((none : Option String), "v2"), "SELECT 2"),
         (((none : Option String), "v3"), "SELECT 5"),
         (((none : Option String), "v4"), "SELECT 4")]).filter
        (fun o => decide (o.key = ((none : Option String), "v4"))) = [] := by
  refine ⟨?_, ?_, ?_, ?_⟩
  · exact (compare_views_partition (fun _ _ => true) _ _ (by decide) (by decide)
      ((none : Option String), "v1")).1 "SELECT 1" (by decide) (by decide) rfl
  · exact (compare_views_partition (fun _ _ => true) _ _ (by decide) (by decide)
      ((none : Option String), "v2")).2.1 "SELECT 2" (by decide) (by decide) rfl
  · exact (compare_views_partition (fun _ _ => true) _ _ (by decide) (by decide)
      ((none : Option String), "v3")).2.2.1 "SELECT 3" "SELECT 5" (by decide)
      (by decide) (by decide) rfl
  · exact (compare_views_partition (fun _ _ => true) _ _ (by decide) (by decide)
      ((none : Option String), "v4")).2.2.2.1 "SELECT 4" "SELECT 4" (by decide)
      (by decide) rfl

/-- C8: for a dialect outside the supported set the comparison fails with
the unsupported-dialect error and the output operations list is not
extended (no partial emission), and for a supported dialect this error is
never raised: the pass returns the input list extended by the comparison
operations. -/
theorem compare_views_dialect_gate (dialect : String)
    (filt : String → Option String → Bool) (sqla db : List (ViewKey × String))
    (ops : List MigOp) :
    (dialect ∉ supportedDialects →
      compare_views dialect filt sqla db ops =
        Except.error ("Unsupported dialect for view reflection: " ++ dialect)) ∧
      (dialect ∈ supportedDialects →
        compare_views dialect filt sqla db ops =
          Except.ok (ops ++ comparisonOps filt sqla db)) := by
  constructor
  · intro h
    simp [compare_views, h]
  · intro h
    simp [compare_views, h]

/-- C8, witness: the dialect gate applied to the unsupported dialect
"mysql" and to the supported dialect "postgresql" with an unchanged
view. -/
theorem compare_views_dialect_gate_witness :
    compare_views "mysql" (fun _ _ => true) [] [] [] =
        Except.error "Unsupported dialect for view reflection: mysql" ∧
      compare_views "postgresql" (fun _ _ => true)
          [(((none : Option String), "v"), "SELECT 1")]
          [(((none : Option String), "v"), "SELECT 1")] [] =
        Except.ok [] := by
  constructor
  · have h := (compare_views_dialect_gate "mysql" (fun _ _ => true) [] [] []).1
      (by decide)
    rw [h]
    rfl
  · have h := (compare_views_dialect_gate "postgresql" (fun _ _ => true)
      [(((none : Option String), "v"), "SELECT 1")]
      [(((none : Option String), "v"), "SELECT 1")] []).2 (by decide)
    rw [h]
    rfl

end AlembicViews
